import Mathlib

/-!
Shallow embedding of the game simulation core of `src/src/App.tsx`
("Cube Rush"): a lane-switching obstacle-dodging runner.

Conventions of the embedding:
* JavaScript numbers are modelled as rationals (`ℚ`); all arithmetic in the
  simulation core is exact on the inputs we consider, so `ℚ` is faithful.
* Lanes are integers (the source type is the union `-1 | 0 | 1`; the lane
  update clamps into that range, see `handleKeyDown`).
* `Math.random()` results are passed in explicitly as `ℚ` parameters in
  `[0, 1)`; the comparator-based shuffle `lanes.sort(() => Math.random() - 0.5)`
  is modelled as an arbitrary permutation of `[-1, 0, 1]` supplied as a
  parameter (a JS sort always returns some rearrangement of its elements).
* React `setX` calls with functional updaters applied within one `useFrame`
  tick are queued and processed in order; the embedding composes them in that
  order.  Reads of plain state variables (`obstacles`, `speed`, `lane`) inside
  the tick see the values from the start of the tick, which the embedding
  reproduces by reading the fields of the pre-tick state.
-/

/-- `type GameState = 'menu' | 'playing' | 'gameover'` (App.tsx line 6). -/
inductive GameState where
  | menu
  | playing
  | gameover
deriving DecidableEq, Repr

/-- `interface Obstacle` (App.tsx lines 9–14). -/
structure Obstacle where
  id : Nat
  z : ℚ
  lane : ℤ
  passed : Bool
deriving DecidableEq, Repr

-- Game constants (App.tsx lines 17–21).
def LANE_WIDTH : ℚ := 5/2
def INITIAL_SPEED : ℚ := 15
def SPEED_INCREMENT : ℚ := 1/2
def OBSTACLE_SPAWN_DISTANCE : ℚ := 80
def OBSTACLE_DESPAWN_DISTANCE : ℚ := -10

/-- The simulation state owned by the `Game` component (App.tsx lines
153–158) together with the phase (`gameState`) and score owned by `App`. -/
structure GameCore where
  phase : GameState
  lane : ℤ
  obstacles : List Obstacle
  speed : ℚ
  score : Nat
  spawnCursor : ℚ   -- `lastSpawnZ.current`
  nextId : Nat      -- `obstacleIdRef.current`
deriving DecidableEq, Repr

/-- Collision test for one obstacle (App.tsx lines 269–276).  The source
computes `distance = Math.sqrt((px-ox)^2 + z^2)` and tests
`distance < 1.8 && obs.z > -1.5 && obs.z < 1.5`.  Since both sides of
`sqrt d < 1.8` are nonnegative, it is equivalent to `d < 1.8^2 = 81/25`,
which keeps the embedding inside `ℚ`. -/
def collides (playerLane : ℤ) (o : Obstacle) : Bool :=
  let px : ℚ := (playerLane : ℚ) * LANE_WIDTH
  let ox : ℚ := (o.lane : ℚ) * LANE_WIDTH
  decide ((px - ox)^2 + o.z^2 < 81/25) && decide (o.z > -3/2) && decide (o.z < 3/2)

/-- Obstacle movement and despawn (App.tsx lines 230–233):
`prev.map(obs => ({...obs, z: obs.z - speed*delta})).filter(obs => obs.z > -10)`. -/
def moveObstacles (speed delta : ℚ) (obs : List Obstacle) : List Obstacle :=
  (obs.map (fun o => { o with z := o.z - speed * delta })).filter
    (fun o => decide (o.z > OBSTACLE_DESPAWN_DISTANCE))

/-- Scoring pass (App.tsx lines 236–241): each not-yet-passed obstacle with
`z < -2` is marked `passed` and credits 10 points.  Returns the updated list
and the number of points credited this tick. -/
def scorePass (obs : List Obstacle) : List Obstacle × Nat :=
  (obs.map (fun o => if !o.passed && decide (o.z < -2) then { o with passed := true } else o),
   10 * (obs.filter (fun o => !o.passed && decide (o.z < -2))).length)

/-- One wave of obstacles at the spawn distance with consecutive fresh ids
(App.tsx lines 256–263). -/
def mkWave (nextId : Nat) : List ℤ → List Obstacle
  | [] => []
  | l :: ls =>
      { id := nextId, z := OBSTACLE_SPAWN_DISTANCE, lane := l, passed := false }
        :: mkWave (nextId + 1) ls

/-- Wave composition (App.tsx lines 250–263):
`numObstacles = Math.random() > 0.7 ? 2 : 1`, the three lanes are shuffled
(`shuffled` stands for the result of the comparator-based shuffle, i.e. some
permutation of `[-1, 0, 1]`), and the first `numObstacles` lanes are blocked.
Returns the spawned obstacles and the updated id counter. -/
def spawnWave (coin : ℚ) (shuffled : List ℤ) (nextId : Nat) : List Obstacle × Nat :=
  let numObstacles : Nat := if coin > 7/10 then 2 else 1
  let blockedLanes := shuffled.take numObstacles
  (mkWave nextId blockedLanes, nextId + blockedLanes.length)

/-- The randomness consumed by one tick. -/
structure TickRand where
  coin : ℚ          -- `Math.random()` deciding 1 vs 2 obstacles (line 251)
  shuffled : List ℤ -- result of the shuffle of `[-1, 0, 1]` (line 253)
  reset : ℚ         -- `Math.random()` in the cursor reset (line 265)
deriving DecidableEq, Repr

/-- Obstacle list after one tick (App.tsx lines 229–266): movement/despawn and
the scoring pass happen inside one `setObstacles` updater; if the spawn cursor
is not positive, the spawn branch appends a new wave via further queued
`setObstacles` updaters. -/
def tickObstacles (s : GameCore) (delta : ℚ) (r : TickRand) : List Obstacle :=
  let scored := (scorePass (moveObstacles s.speed delta s.obstacles)).1
  if s.spawnCursor > 0 then scored
  else scored ++ (spawnWave r.coin r.shuffled s.nextId).1

/-- Spawn cursor after one tick (App.tsx lines 247–266): while positive it
counts down by `speed * delta`; otherwise it resets to `8 + Math.random() * 4`
(and does not count down on that tick). -/
def tickCursor (s : GameCore) (delta : ℚ) (r : TickRand) : ℚ :=
  if s.spawnCursor > 0 then s.spawnCursor - s.speed * delta else 8 + r.reset * 4

/-- Obstacle id counter after one tick (App.tsx line 258). -/
def tickNextId (s : GameCore) (r : TickRand) : Nat :=
  if s.spawnCursor > 0 then s.nextId else (spawnWave r.coin r.shuffled s.nextId).2

/-- One simulation tick: the `useFrame` body (App.tsx lines 222–289).
If the phase is not `playing` the tick is a no-op (line 223).  Otherwise:
obstacles move, despawn and score (lines 229–244); the spawn branch runs
(lines 246–266); collision detection runs over the `obstacles` closure
variable, i.e. over the PRE-tick obstacle list, since the `setObstacles`
updates are only queued (lines 268–280); speed increases (line 283).
All state updates of the tick still apply on a collision tick; only the phase
changes to `gameover`. -/
def tick (s : GameCore) (delta : ℚ) (r : TickRand) : GameCore :=
  if s.phase = GameState.playing then
    { phase := if s.obstacles.any (fun o => collides s.lane o) then GameState.gameover
               else GameState.playing
      lane := s.lane
      obstacles := tickObstacles s delta r
      speed := s.speed + SPEED_INCREMENT * delta * (1/10)
      score := s.score + (scorePass (moveObstacles s.speed delta s.obstacles)).2
      spawnCursor := tickCursor s delta r
      nextId := tickNextId s r }
  else s

/-- The reset performed when the phase becomes `playing` (App.tsx lines
162–172, triggered by `startGame`, line 453): every field of the run state is
reinitialised, regardless of the previous state. -/
def startGame (_prev : GameCore) : GameCore :=
  { phase := GameState.playing
    lane := 0
    obstacles := []
    speed := INITIAL_SPEED
    score := 0
    spawnCursor := OBSTACLE_SPAWN_DISTANCE
    nextId := 0 }

/-- High-score update at game over (App.tsx lines 444–451): the stored high
score is replaced by the final score exactly when `score > highScore`.
Returns the persisted value. -/
def handleGameOver (score highScore : Nat) : Nat :=
  if score > highScore then score else highScore

/-- Keyboard input (App.tsx lines 176–184): ignored unless playing;
left keys clamp the lane down to `-1`, right keys clamp it up to `1`. -/
def handleKeyDown (gameState : GameState) (key : String) (lane : ℤ) : ℤ :=
  if gameState ≠ GameState.playing then lane
  else if key = "ArrowLeft" ∨ key = "a" ∨ key = "A" then max (-1) (lane - 1)
  else if key = "ArrowRight" ∨ key = "d" ∨ key = "D" then min 1 (lane + 1)
  else lane

/-- Touch input (App.tsx lines 198–211): ignored unless playing; a swipe is
recognised when the horizontal delta exceeds 30 pixels, its sign picks the
direction, and the lane is clamped as for keys. -/
def handleTouchEnd (gameState : GameState) (touchStartX touchEndX : ℚ) (lane : ℤ) : ℤ :=
  if gameState ≠ GameState.playing then lane
  else if abs (touchEndX - touchStartX) > 30 then
    if touchEndX - touchStartX > 0 then min 1 (lane + 1) else max (-1) (lane - 1)
  else lane

/-- Iterated obstacle processing used to reason about scoring across ticks:
each tick applies movement/despawn and then the scoring pass, for the given
per-tick `(speed, delta)` pairs; the second component accumulates the points
credited over all ticks. -/
def runTicks : List Obstacle → List (ℚ × ℚ) → List Obstacle × Nat
  | obs, [] => (obs, 0)
  | obs, (sp, d) :: rest =>
      let scored := scorePass (moveObstacles sp d obs)
      let next := runTicks scored.1 rest
      (next.1, scored.2 + next.2)

/-! ## Helper lemmas about `tick` -/

lemma tick_of_playing (s : GameCore) (delta : ℚ) (r : TickRand)
    (hp : s.phase = GameState.playing) :
    tick s delta r =
      { phase := if s.obstacles.any (fun o => collides s.lane o) then GameState.gameover
                 else GameState.playing
        lane := s.lane
        obstacles := tickObstacles s delta r
        speed := s.speed + SPEED_INCREMENT * delta * (1/10)
        score := s.score + (scorePass (moveObstacles s.speed delta s.obstacles)).2
        spawnCursor := tickCursor s delta r
        nextId := tickNextId s r } := by
  rw [tick, if_pos hp]

/-! ## C5: speed monotonicity -/

/-- C5.  On every tick taken while the phase is `playing` with `delta ≥ 0`,
the speed does not decrease, and the update is exactly
`speed + SPEED_INCREMENT * delta * 0.1` (no upper bound). -/
theorem claim_C5_speed_monotone (s : GameCore) (delta : ℚ) (r : TickRand)
    (hp : s.phase = GameState.playing) (hd : 0 ≤ delta) :
    s.speed ≤ (tick s delta r).speed ∧
      (tick s delta r).speed = s.speed + SPEED_INCREMENT * delta * (1/10) := by
  rw [tick_of_playing s delta r hp]
  refine ⟨?_, rfl⟩
  have : (0:ℚ) ≤ SPEED_INCREMENT * delta * (1/10) := by
    unfold SPEED_INCREMENT; nlinarith
  simp only []
  linarith

theorem claim_C5_speed_monotone_witness :
    ({ phase := GameState.playing, lane := 0, obstacles := [], speed := 15,
       score := 0, spawnCursor := 80, nextId := 0 } : GameCore).speed ≤
      (tick { phase := GameState.playing, lane := 0, obstacles := [], speed := 15,
              score := 0, spawnCursor := 80, nextId := 0 } (1/2)
            ⟨0, [-1, 0, 1], 0⟩).speed :=
  (claim_C5_speed_monotone _ (1/2) _ rfl (by norm_num)).1

/-! ## C6: run reset on `menu → playing` -/

/-- C6.  Entering `playing` resets the whole run state regardless of the
previous state: lane to center, obstacle registry to empty, speed to the
initial constant 15, score to 0, spawn cursor to the spawn distance 80, and
the obstacle id counter to 0. -/
theorem claim_C6_start_resets (s : GameCore) :
    (startGame s).phase = GameState.playing ∧
      (startGame s).lane = 0 ∧
      (startGame s).obstacles = [] ∧
      (startGame s).speed = 15 ∧
      (startGame s).score = 0 ∧
      (startGame s).spawnCursor = 80 ∧
      (startGame s).nextId = 0 := by
  refine ⟨rfl, rfl, rfl, ?_, rfl, ?_, rfl⟩ <;> norm_num [startGame, INITIAL_SPEED,
    OBSTACLE_SPAWN_DISTANCE]

/-! ## C7: high-score persistence -/

/-- C7.  At the `playing → game-over` transition the persisted high score
becomes the final score exactly when the final score strictly exceeds the
stored one; otherwise the stored value is kept. -/
theorem claim_C7_high_score (score highScore : Nat) :
    (highScore < score → handleGameOver score highScore = score) ∧
      (score ≤ highScore → handleGameOver score highScore = highScore) := by
  unfold handleGameOver
  constructor <;> intro h <;> split <;> omega

theorem claim_C7_high_score_witness :
    handleGameOver 300 200 = 300 ∧ handleGameOver 150 200 = 200 :=
  ⟨(claim_C7_high_score 300 200).1 (by norm_num),
   (claim_C7_high_score 150 200).2 (by norm_num)⟩

/-! ## C8: input intents and lane clamping -/

/-- C8.  While playing, a move-left intent sets the lane to `max(-1, lane-1)`
and a move-right intent to `min(1, lane+1)`; starting from a lane in
`{-1,0,1}` any key or swipe keeps the lane in `{-1,0,1}`; three left moves
from lane 0 give `-1`; and when the phase is not `playing` neither keys nor
swipes change the lane. -/
theorem claim_C8_lane_clamp (gameState : GameState) (key : String) (lane : ℤ) :
    (gameState = GameState.playing →
        handleKeyDown gameState "ArrowLeft" lane = max (-1) (lane - 1) ∧
        handleKeyDown gameState "ArrowRight" lane = min 1 (lane + 1)) ∧
    (-1 ≤ lane ∧ lane ≤ 1 →
        (-1 ≤ handleKeyDown gameState key lane ∧ handleKeyDown gameState key lane ≤ 1) ∧
        ∀ sx ex : ℚ, -1 ≤ handleTouchEnd gameState sx ex lane ∧
          handleTouchEnd gameState sx ex lane ≤ 1) ∧
    handleKeyDown GameState.playing "ArrowLeft"
      (handleKeyDown GameState.playing "ArrowLeft"
        (handleKeyDown GameState.playing "ArrowLeft" 0)) = -1 ∧
    (gameState ≠ GameState.playing →
        handleKeyDown gameState key lane = lane ∧
        ∀ sx ex : ℚ, handleTouchEnd gameState sx ex lane = lane) := by
  refine ⟨?_, ?_, by decide, ?_⟩
  · intro hp
    subst hp
    constructor <;> simp [handleKeyDown]
  · rintro ⟨h1, h2⟩
    constructor
    · unfold handleKeyDown
      split_ifs <;> omega
    · intro sx ex
      unfold handleTouchEnd
      split_ifs <;> omega
  · intro hp
    constructor
    · unfold handleKeyDown
      rw [if_pos hp]
    · intro sx ex
      unfold handleTouchEnd
      rw [if_pos hp]

theorem claim_C8_lane_clamp_witness :
    handleKeyDown GameState.playing "ArrowLeft" 0 = max (-1) (0 - 1) ∧
      handleKeyDown GameState.menu "ArrowLeft" 1 = 1 :=
  ⟨((claim_C8_lane_clamp GameState.playing "ArrowLeft" 0).1 rfl).1,
   ((claim_C8_lane_clamp GameState.menu "ArrowLeft" 1).2.2.2 (by decide)).1⟩

/-! ## C4: wave composition -/

lemma mkWave_map_lane (ls : List ℤ) : ∀ n, (mkWave n ls).map Obstacle.lane = ls := by
  induction ls with
  | nil => intro n; rfl
  | cons l ls ih => intro n; simp [mkWave, ih]

lemma mkWave_mem (ls : List ℤ) : ∀ n, ∀ o ∈ mkWave n ls,
    o.z = OBSTACLE_SPAWN_DISTANCE ∧ o.passed = false := by
  induction ls with
  | nil => intro n o ho; simp [mkWave] at ho
  | cons l ls ih =>
      intro n o ho
      rcases (by simpa [mkWave] using ho :
          o = { id := n, z := OBSTACLE_SPAWN_DISTANCE, lane := l, passed := false } ∨
            o ∈ mkWave (n + 1) ls) with h | h
      · subst h; exact ⟨rfl, rfl⟩
      · exact ih (n + 1) o h

lemma mkWave_length (ls : List ℤ) (n : Nat) : (mkWave n ls).length = ls.length := by
  have := congrArg List.length (mkWave_map_lane ls n)
  simpa using this

/-- C4.  Every spawned wave blocks 1 or 2 distinct lanes — 2 exactly when the
random draw exceeds 0.7 (probability 30% for a uniform draw on `[0,1)`) — the
blocked lanes are a prefix of the shuffled lane list, every obstacle of the
wave is created at the spawn distance with `passed = false`, and at least one
of the three lanes is left open. -/
theorem claim_C4_wave_composition (coin : ℚ) (shuffled : List ℤ) (nextId : Nat)
    (hperm : shuffled.Perm [-1, 0, 1]) :
    ((coin > 7/10 → (spawnWave coin shuffled nextId).1.length = 2) ∧
      (¬ coin > 7/10 → (spawnWave coin shuffled nextId).1.length = 1)) ∧
    ((spawnWave coin shuffled nextId).1.map Obstacle.lane).Nodup ∧
    (∀ o ∈ (spawnWave coin shuffled nextId).1,
        o.z = OBSTACLE_SPAWN_DISTANCE ∧ o.passed = false) ∧
    ∃ l : ℤ, l ∈ ([-1, 0, 1] : List ℤ) ∧
      l ∉ (spawnWave coin shuffled nextId).1.map Obstacle.lane := by
  have hlen : shuffled.length = 3 := by simpa using hperm.length_eq
  have hnodup : shuffled.Nodup := hperm.nodup_iff.mpr (by decide)
  -- the wave always takes a prefix of length `k ≤ 2` of the shuffled lanes
  set k : Nat := if coin > 7/10 then 2 else 1 with hk
  have hk2 : k ≤ 2 := by rw [hk]; split <;> omega
  have hspawn : (spawnWave coin shuffled nextId).1 = mkWave nextId (shuffled.take k) := by
    simp [spawnWave, hk]
  have hmaplane : (spawnWave coin shuffled nextId).1.map Obstacle.lane = shuffled.take k := by
    rw [hspawn, mkWave_map_lane]
  refine ⟨⟨?_, ?_⟩, ?_, ?_, ?_⟩
  · intro hc
    rw [hspawn, mkWave_length, List.length_take, hlen]
    simp [hk, hc]
  · intro hc
    rw [hspawn, mkWave_length, List.length_take, hlen]
    simp [hk, hc]
  · rw [hmaplane]
    exact (List.take_sublist k shuffled).nodup hnodup
  · rw [hspawn]
    exact mkWave_mem (shuffled.take k) nextId
  · have hdropne : shuffled.drop k ≠ [] := by
      intro hnil
      have := congrArg List.length hnil
      simp [hlen] at this
      omega
    obtain ⟨l, hl⟩ := List.exists_mem_of_ne_nil _ hdropne
    refine ⟨l, ?_, ?_⟩
    · exact hperm.mem_iff.mp (List.mem_of_mem_drop hl)
    · rw [hmaplane]
      exact fun hmem => List.disjoint_take_drop hnodup (le_refl k) hmem hl

theorem claim_C4_wave_composition_witness :
    (spawnWave (1/2) [0, 1, -1] 5).1.length = 1 ∧
      ∃ l : ℤ, l ∈ ([-1, 0, 1] : List ℤ) ∧
        l ∉ (spawnWave (1/2) [0, 1, -1] 5).1.map Obstacle.lane :=
  ⟨(claim_C4_wave_composition (1/2) [0, 1, -1] 5 (by decide)).1.2 (by norm_num),
   (claim_C4_wave_composition (1/2) [0, 1, -1] 5 (by decide)).2.2.2⟩

/-! ## C10: despawn runs before the scoring pass -/

/-- C10.  If one tick's movement carries an obstacle from at or above the
scoring threshold `-2` to at or below the despawn threshold `-10`, the
obstacle is removed by the filter before the scoring pass runs: the registry
ends the tick without it and the score is unchanged. -/
theorem claim_C10_despawn_before_scoring (s : GameCore) (delta : ℚ) (r : TickRand)
    (o : Obstacle) (hp : s.phase = GameState.playing) (ho : s.obstacles = [o])
    (_habove : -2 ≤ o.z) (hfar : o.z - s.speed * delta ≤ -10)
    (hcursor : s.spawnCursor > 0) :
    (tick s delta r).obstacles = [] ∧ (tick s delta r).score = s.score := by
  have hgone : ¬ (o.z - s.speed * delta > OBSTACLE_DESPAWN_DISTANCE) := by
    unfold OBSTACLE_DESPAWN_DISTANCE; linarith
  have hmove : moveObstacles s.speed delta s.obstacles = [] := by
    simp [moveObstacles, ho, hgone]
  rw [tick_of_playing s delta r hp]
  constructor
  · show tickObstacles s delta r = []
    simp [tickObstacles, hmove, scorePass, hcursor]
  · show s.score + (scorePass (moveObstacles s.speed delta s.obstacles)).2 = s.score
    simp [hmove, scorePass]

theorem claim_C10_despawn_before_scoring_witness :
    (tick { phase := GameState.playing, lane := 0,
            obstacles := [{ id := 0, z := 0, lane := 1, passed := false }],
            speed := 15, score := 7, spawnCursor := 80, nextId := 1 } 1
       ⟨0, [-1, 0, 1], 0⟩).obstacles = [] ∧
      (tick { phase := GameState.playing, lane := 0,
              obstacles := [{ id := 0, z := 0, lane := 1, passed := false }],
              speed := 15, score := 7, spawnCursor := 80, nextId := 1 } 1
         ⟨0, [-1, 0, 1], 0⟩).score = 7 :=
  claim_C10_despawn_before_scoring _ 1 _ _ rfl rfl (by norm_num) (by norm_num)
    (by norm_num)

/-! ## C2: each obstacle is scored at most once -/

lemma runTicks_nil_registry : ∀ ts, runTicks [] ts = ([], 0) := by
  intro ts
  induction ts with
  | nil => rfl
  | cons hd rest ih =>
      obtain ⟨sp, d⟩ := hd
      simp [runTicks, moveObstacles, scorePass, ih]

lemma runTicks_passed (ts : List (ℚ × ℚ)) : ∀ o : Obstacle, o.passed = true →
    (runTicks [o] ts).2 = 0 := by
  induction ts with
  | nil => intro o _; rfl
  | cons hd rest ih =>
      obtain ⟨sp, d⟩ := hd
      intro o h
      by_cases hz : o.z - sp * d > OBSTACLE_DESPAWN_DISTANCE
      · have hrec := ih { o with z := o.z - sp * d } (by simpa using h)
        rw [h] at hrec
        simp [runTicks, moveObstacles, scorePass, hz, h, hrec]
      · simp [runTicks, moveObstacles, scorePass, hz, runTicks_nil_registry]

lemma runTicks_single_total (ts : List (ℚ × ℚ)) : ∀ o : Obstacle, o.passed = false →
    (runTicks [o] ts).2 = 0 ∨ (runTicks [o] ts).2 = 10 := by
  induction ts with
  | nil => intro o _; left; rfl
  | cons hd rest ih =>
      obtain ⟨sp, d⟩ := hd
      intro o h
      by_cases hz : o.z - sp * d > OBSTACLE_DESPAWN_DISTANCE
      · by_cases hs : o.z - sp * d < -2
        · right
          have hrest := runTicks_passed rest
            { o with z := o.z - sp * d, passed := true } rfl
          simp [runTicks, moveObstacles, scorePass, hz, hs, h, hrest]
        · have hrec := ih { o with z := o.z - sp * d } (by simpa using h)
          rw [h] at hrec
          rcases hrec with h0 | h10
          · left; simp [runTicks, moveObstacles, scorePass, hz, hs, h, h0]
          · right; simp [runTicks, moveObstacles, scorePass, hz, hs, h, h10]
      · left
        simp [runTicks, moveObstacles, scorePass, hz, runTicks_nil_registry]

lemma runTicks_append (obs : List Obstacle) (ts1 ts2 : List (ℚ × ℚ)) :
    runTicks obs (ts1 ++ ts2) =
      ((runTicks (runTicks obs ts1).1 ts2).1,
        (runTicks obs ts1).2 + (runTicks (runTicks obs ts1).1 ts2).2) := by
  induction ts1 generalizing obs with
  | nil => simp [runTicks]
  | cons hd rest ih =>
      obtain ⟨sp, d⟩ := hd
      simp [runTicks, ih, Nat.add_assoc]

/-- After any run, a singleton registry is empty or still a singleton, and a
`passed` mark is never cleared. -/
lemma runTicks_shape (ts : List (ℚ × ℚ)) : ∀ o : Obstacle,
    (runTicks [o] ts).1 = [] ∨
      ∃ o' : Obstacle, (runTicks [o] ts).1 = [o'] ∧
        (o.passed = true → o'.passed = true) := by
  induction ts with
  | nil => intro o; exact Or.inr ⟨o, rfl, fun hp => hp⟩
  | cons hd rest ih =>
      obtain ⟨sp, d⟩ := hd
      intro o
      by_cases hz : o.z - sp * d > OBSTACLE_DESPAWN_DISTANCE
      · cases hcond : !o.passed && decide (o.z - sp * d < -2) with
        | true =>
            have hc : o.passed = false ∧ o.z - sp * d < -2 := by simpa using hcond
            have hstep : (runTicks [o] ((sp, d) :: rest)).1 =
                (runTicks [{ o with z := o.z - sp * d, passed := true }] rest).1 := by
              simp [runTicks, moveObstacles, scorePass, hz, hc.1, hc.2]
            rcases ih { o with z := o.z - sp * d, passed := true } with hnil | ⟨o', ho', hm⟩
            · exact Or.inl (hstep ▸ hnil)
            · exact Or.inr ⟨o', hstep ▸ ho', fun _ => hm rfl⟩
        | false =>
            have hc : ¬ (o.passed = false ∧ o.z - sp * d < -2) := by
              rintro ⟨h1, h2⟩
              simp [h1, h2] at hcond
            have hstep : (runTicks [o] ((sp, d) :: rest)).1 =
                (runTicks [{ o with z := o.z - sp * d }] rest).1 := by
              simp [runTicks, moveObstacles, scorePass, hz, hc]
            rcases ih { o with z := o.z - sp * d } with hnil | ⟨o', ho', hm⟩
            · exact Or.inl (hstep ▸ hnil)
            · exact Or.inr ⟨o', hstep ▸ ho', fun hp => hm hp⟩
      · have hstep : (runTicks [o] ((sp, d) :: rest)).1 = [] := by
          simp [runTicks, moveObstacles, scorePass, hz, runTicks_nil_registry]
        exact Or.inl hstep

/-- If the obstacle survives a run still unpassed, the run credited nothing:
credit is only ever paid on the tick that sets the `passed` mark. -/
lemma runTicks_unpassed_no_credit (ts : List (ℚ × ℚ)) : ∀ o o1 : Obstacle,
    (runTicks [o] ts).1 = [o1] → o1.passed = false → (runTicks [o] ts).2 = 0 := by
  induction ts with
  | nil => intro o o1 _ _; rfl
  | cons hd rest ih =>
      obtain ⟨sp, d⟩ := hd
      intro o o1 hsurv hW
      by_cases hz : o.z - sp * d > OBSTACLE_DESPAWN_DISTANCE
      · cases hcond : !o.passed && decide (o.z - sp * d < -2) with
        | true =>
            exfalso
            have hc : o.passed = false ∧ o.z - sp * d < -2 := by simpa using hcond
            have hstep : (runTicks [o] ((sp, d) :: rest)).1 =
                (runTicks [{ o with z := o.z - sp * d, passed := true }] rest).1 := by
              simp [runTicks, moveObstacles, scorePass, hz, hc.1, hc.2]
            rw [hstep] at hsurv
            rcases runTicks_shape rest { o with z := o.z - sp * d, passed := true } with
              hnil | ⟨o', ho', hm⟩
            · rw [hnil] at hsurv
              exact List.noConfusion hsurv
            · rw [ho'] at hsurv
              have heq : o' = o1 := by simpa using hsurv
              have : o1.passed = true := heq ▸ hm rfl
              rw [this] at hW
              exact Bool.noConfusion hW
        | false =>
            have hc : ¬ (o.passed = false ∧ o.z - sp * d < -2) := by
              rintro ⟨h1, h2⟩
              simp [h1, h2] at hcond
            have hstep1 : (runTicks [o] ((sp, d) :: rest)).1 =
                (runTicks [{ o with z := o.z - sp * d }] rest).1 := by
              simp [runTicks, moveObstacles, scorePass, hz, hc]
            have hstep2 : (runTicks [o] ((sp, d) :: rest)).2 =
                (runTicks [{ o with z := o.z - sp * d }] rest).2 := by
              simp [runTicks, moveObstacles, scorePass, hz, hc]
            rw [hstep2]
            exact ih _ o1 (hstep1 ▸ hsurv) hW
      · have hstep : (runTicks [o] ((sp, d) :: rest)).1 = [] := by
          simp [runTicks, moveObstacles, scorePass, hz, runTicks_nil_registry]
        rw [hstep] at hsurv
        exact List.noConfusion hsurv

/-- C2.  For a single obstacle that starts unpassed: the total credit over
any run is 0 or exactly 10 (never 10 per tick); and on any run in which some
tick moves the still-unpassed obstacle strictly below the scoring threshold
`-2` while it survives the despawn filter (stays strictly above `-10`), the
total credit is EXACTLY 10 — the crossing tick pays 10 and every later tick
pays nothing.  Also the scoring threshold `-2` lies before the despawn
threshold `-10`. -/
theorem claim_C2_scored_exactly_once (ts : List (ℚ × ℚ)) (o : Obstacle)
    (h : o.passed = false) :
    ((runTicks [o] ts).2 = 0 ∨ (runTicks [o] ts).2 = 10) ∧
    (∀ ts1 sp d ts2 o1, ts = ts1 ++ (sp, d) :: ts2 →
        (runTicks [o] ts1).1 = [o1] → o1.passed = false →
        -10 < o1.z - sp * d → o1.z - sp * d < -2 →
        (runTicks [o] ts).2 = 10) ∧
    OBSTACLE_DESPAWN_DISTANCE < -2 := by
  refine ⟨runTicks_single_total ts o h, ?_, by norm_num [OBSTACLE_DESPAWN_DISTANCE]⟩
  rintro ts1 sp d ts2 o1 rfl hsurv hW h10 h2
  rw [runTicks_append]
  have c1 : (runTicks [o] ts1).2 = 0 := runTicks_unpassed_no_credit ts1 o o1 hsurv hW
  rw [hsurv, c1]
  have hz : o1.z - sp * d > OBSTACLE_DESPAWN_DISTANCE := by
    unfold OBSTACLE_DESPAWN_DISTANCE; linarith
  have hrest := runTicks_passed ts2 { o1 with z := o1.z - sp * d, passed := true } rfl
  simp [runTicks, moveObstacles, scorePass, hz, h2, hW, hrest]

theorem claim_C2_scored_exactly_once_witness :
    (runTicks [{ id := 0, z := 1/2, lane := 0, passed := false }] [(15, 1/5)]).2 = 10 :=
  (claim_C2_scored_exactly_once [(15, 1/5)]
      { id := 0, z := 1/2, lane := 0, passed := false } rfl).2.1
    [] 15 (1/5) [] { id := 0, z := 1/2, lane := 0, passed := false } rfl rfl rfl
    (by norm_num) (by norm_num)

/-! ## C1: collision condition -/

lemma lane_sep (a b : ℤ) (ha : a = -1 ∨ a = 0 ∨ a = 1) (hb : b = -1 ∨ b = 0 ∨ b = 1)
    (hne : a ≠ b) : (25/4 : ℚ) ≤ ((a : ℚ) * (5/2) - (b : ℚ) * (5/2))^2 := by
  rcases ha with rfl | rfl | rfl <;> rcases hb with rfl | rfl | rfl <;>
    first
      | exact absurd rfl hne
      | norm_num

/-- For lanes in `{-1, 0, 1}` the source's collision test (Euclidean distance
below 1.8 together with the longitudinal window) holds exactly when the
obstacle shares the player's lane and its position lies strictly inside
`(-3/2, 3/2)`. -/
lemma collides_iff (p : ℤ) (o : Obstacle) (hp : p = -1 ∨ p = 0 ∨ p = 1)
    (hl : o.lane = -1 ∨ o.lane = 0 ∨ o.lane = 1) :
    collides p o = true ↔ o.lane = p ∧ -3/2 < o.z ∧ o.z < 3/2 := by
  simp only [collides, LANE_WIDTH, Bool.and_eq_true, decide_eq_true_eq]
  by_cases heq : o.lane = p
  · rw [heq]
    constructor
    · rintro ⟨⟨_, h2⟩, h3⟩
      exact ⟨rfl, h2, h3⟩
    · rintro ⟨_, h2, h3⟩
      refine ⟨⟨?_, h2⟩, h3⟩
      nlinarith
  · apply iff_of_false
    · rintro ⟨⟨h1, _⟩, _⟩
      have hsep := lane_sep p o.lane hp hl (fun h => heq h.symm)
      nlinarith [sq_nonneg o.z]
    · rintro ⟨h1, _, _⟩
      exact heq h1

/-- C1 (amended).  For a playing tick with all lanes in `{-1, 0, 1}`, the
phase transitions to `gameover` on that tick exactly when some live obstacle
shares the player's lane and its longitudinal position lies strictly inside
the open window `(-3/2, 3/2)`; in particular an obstacle in a different lane
never ends the game, and a same-lane obstacle at position 0 always does. -/
theorem claim_C1_collision_iff (s : GameCore) (delta : ℚ) (r : TickRand)
    (hp : s.phase = GameState.playing)
    (hlane : s.lane = -1 ∨ s.lane = 0 ∨ s.lane = 1)
    (hobs : ∀ o ∈ s.obstacles, o.lane = -1 ∨ o.lane = 0 ∨ o.lane = 1) :
    (tick s delta r).phase = GameState.gameover ↔
      ∃ o ∈ s.obstacles, o.lane = s.lane ∧ -3/2 < o.z ∧ o.z < 3/2 := by
  rw [tick_of_playing s delta r hp]
  show (if s.obstacles.any (fun o => collides s.lane o) then GameState.gameover
        else GameState.playing) = GameState.gameover ↔ _
  have hsplit : (if s.obstacles.any (fun o => collides s.lane o) then GameState.gameover
      else GameState.playing) = GameState.gameover ↔
        s.obstacles.any (fun o => collides s.lane o) = true := by
    split_ifs with h <;> simp [h]
  rw [hsplit, List.any_eq_true]
  constructor
  · rintro ⟨o, ho, hc⟩
    exact ⟨o, ho, (collides_iff s.lane o hlane (hobs o ho)).mp hc⟩
  · rintro ⟨o, ho, hc⟩
    exact ⟨o, ho, (collides_iff s.lane o hlane (hobs o ho)).mpr hc⟩

theorem claim_C1_collision_iff_witness :
    (tick { phase := GameState.playing, lane := 0,
            obstacles := [{ id := 0, z := 0, lane := 0, passed := false }],
            speed := 15, score := 0, spawnCursor := 80, nextId := 1 } 1
       ⟨0, [-1, 0, 1], 0⟩).phase = GameState.gameover :=
  (claim_C1_collision_iff _ 1 _ rfl (Or.inr (Or.inl rfl)) (by decide)).mpr
    ⟨{ id := 0, z := 0, lane := 0, passed := false }, by decide, rfl, by norm_num,
      by norm_num⟩

/-- C1 counterexample.  A same-lane obstacle at longitudinal position exactly
`3/2` lies within the CLOSED window `[-3/2, 3/2]` of the claim, yet the tick
leaves the phase `playing`: the source's window test is strict
(`obs.z > -1.5 && obs.z < 1.5`). -/
theorem claim_C1_counterexample :
    (tick { phase := GameState.playing, lane := 0,
            obstacles := [{ id := 0, z := 3/2, lane := 0, passed := false }],
            speed := 15, score := 0, spawnCursor := 80, nextId := 1 } 1
       ⟨0, [-1, 0, 1], 0⟩).phase = GameState.playing ∧
      ({ id := 0, z := 3/2, lane := 0, passed := false } : Obstacle) ∈
        ({ phase := GameState.playing, lane := 0,
           obstacles := [{ id := 0, z := 3/2, lane := 0, passed := false }],
           speed := 15, score := 0, spawnCursor := 80, nextId := 1 } : GameCore).obstacles ∧
      ({ id := 0, z := 3/2, lane := 0, passed := false } : Obstacle).lane = 0 ∧
      -3/2 ≤ ({ id := 0, z := 3/2, lane := 0, passed := false } : Obstacle).z ∧
      ({ id := 0, z := 3/2, lane := 0, passed := false } : Obstacle).z ≤ 3/2 := by
  have hcol : collides 0 { id := 0, z := 3/2, lane := 0, passed := false } = false := by
    have hlt : ¬ ((3/2 : ℚ) < 3/2) := lt_irrefl _
    simp [collides, decide_eq_false hlt]
  refine ⟨?_, List.mem_cons_self _ _, rfl, by norm_num, by norm_num⟩
  rw [tick_of_playing _ _ _ rfl]
  simp [hcol]

/-! ## C3: spawn cadence -/

/-- C3 counterexample.  Starting from cursor 80 with speed 15, a tick with
`delta = 6` drives the cursor to `-10` — it "reaches zero or below" on this
tick — yet no wave spawns (the registry stays empty) and the cursor is not
reset into `[8, 12]`: the source's `if/else` only spawns on a LATER tick that
already begins with a non-positive cursor. -/
theorem claim_C3_counterexample :
    (tick { phase := GameState.playing, lane := 0, obstacles := [], speed := 15,
            score := 0, spawnCursor := 80, nextId := 0 } 6
       ⟨0, [-1, 0, 1], 0⟩).obstacles = [] ∧
      (tick { phase := GameState.playing, lane := 0, obstacles := [], speed := 15,
              score := 0, spawnCursor := 80, nextId := 0 } 6
         ⟨0, [-1, 0, 1], 0⟩).spawnCursor = -10 := by
  refine ⟨?_, ?_⟩ <;> rw [tick_of_playing _ _ _ rfl]
  · norm_num [tickObstacles, moveObstacles, scorePass]
  · norm_num [tickCursor]

/-- C3 (amended).  On a playing tick that begins with a positive spawn
cursor, the cursor counts down by `speed * delta` and no wave spawns (the id
counter is unchanged), even if the countdown takes the cursor to zero or
below.  On a playing tick that begins with the cursor at zero or below, the
cursor does not count down: a wave spawns at the spawn distance 80 and the
cursor resets to `8 + 4·u` for the uniform draw `u ∈ [0, 1)`, i.e. to a value
in `[8, 12)`. -/
theorem claim_C3_spawn_cadence (s : GameCore) (delta : ℚ) (r : TickRand)
    (hp : s.phase = GameState.playing) (h0 : 0 ≤ r.reset) (h1 : r.reset < 1) :
    (s.spawnCursor > 0 →
        (tick s delta r).spawnCursor = s.spawnCursor - s.speed * delta ∧
        (tick s delta r).obstacles = (scorePass (moveObstacles s.speed delta s.obstacles)).1 ∧
        (tick s delta r).nextId = s.nextId) ∧
    (¬ s.spawnCursor > 0 →
        (tick s delta r).obstacles =
          (scorePass (moveObstacles s.speed delta s.obstacles)).1 ++
            (spawnWave r.coin r.shuffled s.nextId).1 ∧
        (∀ o ∈ (spawnWave r.coin r.shuffled s.nextId).1, o.z = OBSTACLE_SPAWN_DISTANCE) ∧
        (tick s delta r).spawnCursor = 8 + r.reset * 4 ∧
        8 ≤ (tick s delta r).spawnCursor ∧ (tick s delta r).spawnCursor < 12) := by
  rw [tick_of_playing s delta r hp]
  constructor
  · intro hpos
    refine ⟨?_, ?_, ?_⟩
    · show tickCursor s delta r = _
      rw [tickCursor, if_pos hpos]
    · show tickObstacles s delta r = _
      rw [tickObstacles]
      simp [hpos]
    · show tickNextId s r = _
      rw [tickNextId, if_pos hpos]
  · intro hpos
    have hz : ∀ o ∈ (spawnWave r.coin r.shuffled s.nextId).1, o.z = OBSTACLE_SPAWN_DISTANCE := by
      intro o ho
      have : (spawnWave r.coin r.shuffled s.nextId).1 =
          mkWave s.nextId (r.shuffled.take (if r.coin > 7/10 then 2 else 1)) := by
        simp [spawnWave]
      rw [this] at ho
      exact (mkWave_mem _ _ o ho).1
    have hcur : tickCursor s delta r = 8 + r.reset * 4 := by
      rw [tickCursor, if_neg hpos]
    refine ⟨?_, hz, hcur, ?_, ?_⟩
    · show tickObstacles s delta r = _
      rw [tickObstacles]
      simp [hpos]
    · show (8 : ℚ) ≤ tickCursor s delta r
      rw [hcur]; linarith
    · show tickCursor s delta r < 12
      rw [hcur]; linarith

theorem claim_C3_spawn_cadence_witness :
    (tick { phase := GameState.playing, lane := 0, obstacles := [], speed := 15,
            score := 0, spawnCursor := 80, nextId := 0 } 1
       ⟨0, [-1, 0, 1], 1/2⟩).spawnCursor = 80 - 15 * 1 :=
  ((claim_C3_spawn_cadence _ 1 _ rfl (by norm_num) (by norm_num)).1 (by norm_num)).1

/-! ## C9: collision detection sees pre-move positions -/

lemma scorePass_fst (l : List Obstacle) :
    (scorePass l).1 =
      l.map (fun o => if !o.passed && decide (o.z < -2) then { o with passed := true }
                      else o) := rfl

/-- C9.  Collision detection of a tick is evaluated on the obstacle list as it
was BEFORE that tick's movement: if no pre-move obstacle collides, the tick
stays `playing` even when an obstacle's post-move position is inside the
collision window; that obstacle is then caught by the NEXT tick's check. -/
theorem claim_C9_pre_move_collision (s : GameCore) (delta delta2 : ℚ) (r r2 : TickRand)
    (o : Obstacle) (hp : s.phase = GameState.playing)
    (hno : s.obstacles.any (fun x => collides s.lane x) = false)
    (hmem : o ∈ s.obstacles)
    (hcol : collides s.lane { o with z := o.z - s.speed * delta } = true) :
    (tick s delta r).phase = GameState.playing ∧
      (tick (tick s delta r) delta2 r2).phase = GameState.gameover := by
  have h1 := tick_of_playing s delta r hp
  have hphase : (tick s delta r).phase = GameState.playing := by
    rw [h1]; simp [hno]
  have hlane' : (tick s delta r).lane = s.lane := by rw [h1]
  have hobs' : (tick s delta r).obstacles = tickObstacles s delta r := by rw [h1]
  set o' : Obstacle := { o with z := o.z - s.speed * delta } with ho'
  have hoz : o'.z = o.z - s.speed * delta := rfl
  have hb : -3/2 < o'.z ∧ o'.z < 3/2 := by
    simp only [collides, Bool.and_eq_true, decide_eq_true_eq] at hcol
    exact ⟨hcol.1.2, hcol.2⟩
  have hm1 : o' ∈ moveObstacles s.speed delta s.obstacles := by
    rw [moveObstacles]
    refine List.mem_filter.mpr ⟨List.mem_map_of_mem _ hmem, ?_⟩
    simp only [decide_eq_true_eq]
    show o'.z > OBSTACLE_DESPAWN_DISTANCE
    unfold OBSTACLE_DESPAWN_DISTANCE
    linarith [hb.1]
  have hm2 : o' ∈ (scorePass (moveObstacles s.speed delta s.obstacles)).1 := by
    rw [scorePass_fst]
    have hfix : (if !o'.passed && decide (o'.z < -2) then { o' with passed := true }
        else o') = o' := by
      have hnot : decide (o'.z < -2) = false := decide_eq_false (by linarith [hb.1])
      simp [hnot]
    exact List.mem_map.mpr ⟨o', hm1, hfix⟩
  have hm3 : o' ∈ tickObstacles s delta r := by
    rw [tickObstacles]
    by_cases hc : s.spawnCursor > 0
    · simpa [hc] using hm2
    · simp only [hc, if_neg, ite_false]
      exact List.mem_append_left _ hm2
  refine ⟨hphase, ?_⟩
  rw [tick_of_playing _ delta2 r2 hphase]
  have hany : ((tick s delta r).obstacles.any
      (fun x => collides (tick s delta r).lane x)) = true := by
    rw [hlane', hobs']
    exact List.any_eq_true.mpr ⟨o', hm3, hcol⟩
  simp [hany]

theorem claim_C9_pre_move_collision_witness :
    (tick { phase := GameState.playing, lane := 0,
            obstacles := [{ id := 0, z := 29/10, lane := 0, passed := false }],
            speed := 15, score := 0, spawnCursor := 80, nextId := 1 } (1/10)
       ⟨0, [-1, 0, 1], 0⟩).phase = GameState.playing ∧
      (tick (tick { phase := GameState.playing, lane := 0,
                    obstacles := [{ id := 0, z := 29/10, lane := 0, passed := false }],
                    speed := 15, score := 0, spawnCursor := 80, nextId := 1 } (1/10)
               ⟨0, [-1, 0, 1], 0⟩) 1 ⟨0, [-1, 0, 1], 0⟩).phase = GameState.gameover :=
  claim_C9_pre_move_collision _ (1/10) 1 _ _
    { id := 0, z := 29/10, lane := 0, passed := false } rfl
    (by
      have hfar : ¬ ((29/10 : ℚ) < 3/2) := by norm_num
      simp [collides, decide_eq_false hfar])
    (List.mem_cons_self _ _)
    (by
      simp only [collides, LANE_WIDTH, Bool.and_eq_true, decide_eq_true_eq]
      norm_num)
